import Mathlib

/-!
Verification of the vlx2mqtt bridge (src/vlx2mqtt.py) against its
natural-language specification.

The development shallowly embeds the parts of the program the claims are
about:

* the command staging table `nodes` (a Python dict from device name to a
  pending position, with the sentinel -1 meaning "no pending command"),
  written by `mqtt_on_message` and drained by the per-tick block of `main`
  (lines 229-234);
* the MQTT callbacks `mqtt_on_connect`, `mqtt_on_disconnect`, `vlx_cb`
  and the `cleanup` signal handler, as transformations of an explicit
  bridge state recording the RUNNING and MQTT_CONN flags, the publishes
  and subscriptions performed, and the sleeps taken;
* the shutdown tail of `main` (lines 236-245).

Python dicts are embedded as association lists with unique keys (insertion
order preserved, assignment overwrites in place); the fallible hub write
`set_position` is a parameter returning `Except`.
-/

set_option autoImplicit false

namespace Vlx2Mqtt

/-- The "no pending command" marker written by the tick loop
(`nodes[name] = -1`, line 231 of src/vlx2mqtt.py). -/
def SENTINEL : Int := -1

/-- Embeds Python dict assignment `tbl[k] = v`: overwrite the entry for `k`
in place if present, else append a new entry (insertion order). -/
def dictSet : List (String × Int) → String → Int → List (String × Int)
  | [], k, v => [(k, v)]
  | (k', v') :: rest, k, v =>
    if k' = k then (k', v) :: rest else (k', v') :: dictSet rest k v

/-- Embeds Python dict read `tbl.get(k)`: the value at the first entry whose
key is `k`, if any. -/
def dictGet : List (String × Int) → String → Option Int
  | [], _ => none
  | (k', v') :: rest, k => if k' = k then some v' else dictGet rest k

/-- The keys of the association list are pairwise distinct: the invariant
every Python dict satisfies. -/
def uniqueKeys (tbl : List (String × Int)) : Prop :=
  (tbl.map Prod.fst).Nodup

/-- Embeds the effect of one pass of the per-tick command block of `main`
(src/vlx2mqtt.py lines 229-234) on the staging table, assuming no hub write
fails: every entry with value >= 0 is reset to the sentinel and its
(name, value) pair is issued to `set_position`; entries with negative
values are left untouched and issue nothing.  Returns (new table, issued
commands in table order). -/
def drainReady : List (String × Int) → List (String × Int) × List (String × Int)
  | [] => ([], [])
  | (name, value) :: rest =>
    if 0 ≤ value then
      ((name, SENTINEL) :: (drainReady rest).1, (name, value) :: (drainReady rest).2)
    else
      ((name, value) :: (drainReady rest).1, (drainReady rest).2)

/-- Embeds the per-tick command block of `main` (src/vlx2mqtt.py lines
229-234) with a fallible hub write.  The first argument list is the
snapshot `list(nodes.items())`, the second the live table.  For each
snapshot entry with value >= 0, the live table entry is first reset to the
sentinel (line 231) and only then `set_position` is awaited (lines
232-234); an exception from `set_position` aborts the loop at once, as in
Python.  Returns (final table, values passed to set_position, the
uncaught exception if any). -/
def tickLoop (setPos : String → Int → Except String Unit) :
    List (String × Int) → List (String × Int) →
    List (String × Int) × List (String × Int) × Option String
  | [], tbl => (tbl, [], none)
  | (name, value) :: rest, tbl =>
    if 0 ≤ value then
      match setPos name value with
      | Except.ok _ =>
        let r := tickLoop setPos rest (dictSet tbl name SENTINEL)
        (r.1, (name, value) :: r.2.1, r.2.2)
      | Except.error e => (dictSet tbl name SENTINEL, [(name, value)], some e)
    else tickLoop setPos rest tbl

/-- A hub write that always succeeds. -/
def okSetPos : String → Int → Except String Unit := fun _ _ => Except.ok ()

/-- A hub write that raises exactly on the device named `bad`. -/
def failingSetPos (bad : String) : String → Int → Except String Unit :=
  fun name _ => if name = bad then Except.error "hub write failed" else Except.ok ()

/-- Embeds the `while RUNNING` loop of `main` across several ticks
(src/vlx2mqtt.py lines 225-234): before each tick the inbound stagings of
that tick are applied to the table, then the tick's command block runs;
an uncaught exception from a hub write ends the loop immediately (the
`await` at line 232 is not guarded by any try/except), so no later tick
runs.  Returns (final table, all values passed to set_position, the
uncaught exception if any). -/
def runTicks (setPos : String → Int → Except String Unit) :
    List (List (String × Int)) → List (String × Int) →
    List (String × Int) × List (String × Int) × Option String
  | [], tbl => (tbl, [], none)
  | batch :: rest, tbl =>
    let tblStaged := batch.foldl (fun t kv => dictSet t kv.1 kv.2) tbl
    let r := tickLoop setPos tblStaged tblStaged
    match r.2.2 with
    | some e => (r.1, r.2.1, some e)
    | none =>
      let r' := runTicks setPos rest r.1
      (r'.1, r.2.1 ++ r'.2.1, r'.2.2)

example : drainReady [("a", 42), ("b", -1), ("c", 0)] =
    ([("a", SENTINEL), ("b", -1), ("c", SENTINEL)], [("a", 42), ("c", 0)]) := by
  decide

example : dictSet (dictSet [] "d" 10) "d" 42 = [("d", 42)] := by decide

/-- Is `needle` a leading segment of the character list? -/
def listPrefixOf : List Char → List Char → Bool
  | [], _ => true
  | _ :: _, [] => false
  | a :: as, b :: bs => a == b && listPrefixOf as bs

/-- Does `needle` occur as a contiguous segment of the character list? -/
def listSubstr (needle : List Char) : List Char → Bool
  | [] => needle.isEmpty
  | b :: rest => listPrefixOf needle (b :: rest) || listSubstr needle rest

/-- Embeds the Python substring test `needle in hay`. -/
def strContains (hay needle : String) : Bool := listSubstr needle.data hay.data

/-- The membership test of `mqtt_on_message` (src/vlx2mqtt.py line 153):
whether node.name followed by "/set" occurs in msg.topic — a substring
check, not an exact topic match. -/
def matchesTopic (topic name : String) : Bool := strContains topic (name ++ "/set")

/-- ASCII whitespace, as stripped by Python `int()` from its argument. -/
def isWs (c : Char) : Bool := c == ' ' || c == '\t' || c == '\n' || c == '\r'

/-- Strip leading and trailing whitespace from a character list. -/
def stripWs (cs : List Char) : List Char :=
  ((cs.dropWhile isWs).reverse.dropWhile isWs).reverse

/-- Numeric value of a decimal digit string. -/
def digitsVal (cs : List Char) : Nat :=
  cs.foldl (fun n c => 10 * n + (c.toNat - 48)) 0

/-- Embeds Python `int(payload)` on a decimal payload: optional sign followed
by at least one ASCII digit, surrounding whitespace stripped; `none` when the
payload is not of this shape (Python raises ValueError there). -/
def parseInt (s : String) : Option Int :=
  match stripWs s.data with
  | [] => none
  | c :: ds =>
    if c = '-' then
      if ds.isEmpty then none
      else if ds.all Char.isDigit then some (-(digitsVal ds : Int)) else none
    else if c = '+' then
      if ds.isEmpty then none
      else if ds.all Char.isDigit then some ((digitsVal ds : Int)) else none
    else
      if (c :: ds).all Char.isDigit then some ((digitsVal (c :: ds) : Int)) else none

example : parseInt "42" = some 42 := by decide
example : parseInt "abc" = none := by decide
example : parseInt "-7" = some (-7) := by decide
example : matchesTopic "home/shutter1/set" "shutter1" = true := by decide
example : matchesTopic "home/shutter1/set" "tter1" = true := by decide
example : matchesTopic "home/shutter1/set" "shutter2" = false := by decide

/-- Embeds `mqtt_on_message` (src/vlx2mqtt.py lines 147-156).  The roster is
`pyvlx.nodes` as (name, is-opening-device) pairs; the handler iterates over
every node regardless of its capability, and for each node whose name
followed by "/set" is a substring of the topic evaluates `int(msg.payload)`
and assigns it to `nodes[node.name]`.  A payload `int()` cannot parse raises
ValueError out of the handler, embedded as `Except.error ()`. -/
def mqtt_on_message (roster : List (String × Bool)) (topic payload : String) :
    List (String × Int) → Except Unit (List (String × Int))
  | tbl =>
    match roster with
    | [] => Except.ok tbl
    | (name, _) :: rest =>
      if matchesTopic topic name then
        match parseInt payload with
        | some v => mqtt_on_message rest topic payload (dictSet tbl name v)
        | none => Except.error ()
      else mqtt_on_message rest topic payload tbl

/-- The pure staging effect of `mqtt_on_message` when the payload parses:
each matching roster device's entry is overwritten with the parsed value. -/
def stageMatches (roster : List (String × Bool)) (topic : String) (v : Int) :
    List (String × Int) → List (String × Int)
  | tbl =>
    match roster with
    | [] => tbl
    | (name, _) :: rest =>
      if matchesTopic topic name then stageMatches rest topic v (dictSet tbl name v)
      else stageMatches rest topic v tbl

/-- Device `d` is staged by a message on `topic`: some roster entry is named
`d` and matches the topic by the substring test. -/
def stagedFor (roster : List (String × Bool)) (topic : String) (d : String) : Bool :=
  roster.any (fun p => decide (p.1 = d) && matchesTopic topic p.1)

example :
    mqtt_on_message [("shutter1", true)] "home/shutter1/set" "42" [] =
      Except.ok [("shutter1", 42)] := rfl

/-- The observable state of the bridge process: the RUNNING and MQTT_CONN
globals of src/vlx2mqtt.py, the sequence of broker publishes performed so
far as (topic, payload, retained) triples, the sleeps taken (in seconds),
and the topics subscribed to. -/
structure BridgeState where
  running : Bool
  mqttConn : Bool
  publishes : List (String × String × Bool)
  sleeps : List Nat
  subscriptions : List String
deriving DecidableEq

/-- The state at process start: RUNNING = True, MQTT_CONN = False
(src/vlx2mqtt.py lines 49-50), nothing published, slept or subscribed. -/
def initState : BridgeState := ⟨true, false, [], [], []⟩

/-- Embeds the signal handler `cleanup` (src/vlx2mqtt.py lines 159-164):
sets RUNNING to False, nothing else. -/
def cleanup (s : BridgeState) : BridgeState :=
  { s with running := false }

/-- Embeds `mqtt_on_connect` (src/vlx2mqtt.py lines 88-131) for one CONNACK
reason code: on success (code 0) publish "CONNECTED" retained on the status
topic, subscribe to roottopic/name/set for every opening device of the
roster, and set MQTT_CONN; on "server unavailable" (code 3) sleep 10
seconds and return; on every other refusal code call `cleanup`. -/
def mqtt_on_connect (root status : String) (roster : List (String × Bool))
    (rc : Nat) (s : BridgeState) : BridgeState :=
  if rc = 0 then
    { s with
        publishes := s.publishes ++ [(status, "CONNECTED", true)],
        subscriptions := s.subscriptions ++
          ((roster.filter (fun p => p.2)).map (fun p => root ++ "/" ++ p.1 ++ "/set")),
        mqttConn := true }
  else if rc = 1 then cleanup s
  else if rc = 2 then cleanup s
  else if rc = 3 then { s with sleeps := s.sleeps ++ [10] }
  else if rc = 4 then cleanup s
  else if rc = 5 then cleanup s
  else cleanup s

/-- Embeds `mqtt_on_disconnect` (src/vlx2mqtt.py lines 134-144): clears
MQTT_CONN; a clean disconnect (code 0) only logs, any other code sleeps 5
seconds before the client's reconnect attempt. -/
def mqtt_on_disconnect (rc : Nat) (s : BridgeState) : BridgeState :=
  { s with
      mqttConn := false,
      sleeps := if rc = 0 then s.sleeps else s.sleeps ++ [5] }

/-- The connect handler invoked once per connect attempt outcome, folded
over a list of CONNACK reason codes. -/
def processConnects (root status : String) (roster : List (String × Bool))
    (codes : List Nat) (s : BridgeState) : BridgeState :=
  codes.foldl (fun st rc => mqtt_on_connect root status roster rc st) s

/-- Embeds the shutdown tail of `main` (src/vlx2mqtt.py lines 236-245), run
once the `while RUNNING` loop exits: publish "DISCONNECTING KLF",
"DISCONNECTED KLF" and finally "DISCONNECTED", all retained, on the status
topic, then disconnect from the broker. -/
def shutdownSequence (status : String) (s : BridgeState) : BridgeState :=
  { s with publishes := s.publishes ++
      [(status, "DISCONNECTING KLF", true),
       (status, "DISCONNECTED KLF", true),
       (status, "DISCONNECTED", true)] }

/-- Embeds `vlx_cb` (src/vlx2mqtt.py lines 168-178): the device-update
callback returns without publishing when MQTT_CONN is not set, and
otherwise publishes the position percent, non-retained, to
roottopic/name.  Returns the publishes performed. -/
def vlx_cb (mqttConn : Bool) (root name : String) (posPercent : Nat) :
    List (String × String × Bool) :=
  if !mqttConn then []
  else [(root ++ "/" ++ name, toString posPercent, false)]

example :
    mqtt_on_connect "home" "vlx/status" [("shutter1", true), ("lamp", false)] 0 initState =
      ⟨true, true, [("vlx/status", "CONNECTED", true)], [], ["home/shutter1/set"]⟩ := by
  decide

example : mqtt_on_connect "home" "vlx/status" [] 4 initState =
    ⟨false, false, [], [], []⟩ := by decide

example : vlx_cb true "home" "shutter1" 37 = [("home/shutter1", "37", false)] := rfl

/-! ### Association-list lemmas -/

theorem dictGet_dictSet_self (tbl : List (String × Int)) (k : String) (v : Int) :
    dictGet (dictSet tbl k v) k = some v := by
  induction tbl with
  | nil => simp [dictSet, dictGet]
  | cons hd rest ih =>
    obtain ⟨k', v'⟩ := hd
    by_cases h : k' = k
    · simp [dictSet, dictGet, h]
    · simp [dictSet, dictGet, h, ih]

theorem dictGet_dictSet_ne (tbl : List (String × Int)) (k d : String) (v : Int)
    (h : k ≠ d) : dictGet (dictSet tbl k v) d = dictGet tbl d := by
  induction tbl with
  | nil => simp [dictSet, dictGet, h]
  | cons hd rest ih =>
    obtain ⟨k', v'⟩ := hd
    by_cases hk : k' = k
    · subst hk
      simp [dictSet, dictGet, h]
    · simp [dictSet, dictGet, hk, ih]

theorem dictGet_some_mem (tbl : List (String × Int)) (d : String) (v : Int)
    (h : dictGet tbl d = some v) : (d, v) ∈ tbl := by
  induction tbl with
  | nil => simp [dictGet] at h
  | cons hd rest ih =>
    obtain ⟨k, w⟩ := hd
    by_cases hk : k = d
    · subst hk
      simp [dictGet] at h
      simp [h]
    · simp [dictGet, hk] at h
      exact List.mem_cons_of_mem _ (ih h)

theorem mem_keys_dictSet (tbl : List (String × Int)) (k : String) (v : Int) (a : String)
    (h : a ∈ (dictSet tbl k v).map Prod.fst) : a ∈ tbl.map Prod.fst ∨ a = k := by
  induction tbl with
  | nil =>
    simp [dictSet] at h
    exact Or.inr h
  | cons hd rest ih =>
    obtain ⟨k', v'⟩ := hd
    by_cases hk : k' = k
    · subst hk
      rw [show dictSet ((k', v') :: rest) k' v = (k', v) :: rest from by simp [dictSet]] at h
      exact Or.inl h
    · rw [show dictSet ((k', v') :: rest) k v = (k', v') :: dictSet rest k v from by
        simp [dictSet, hk]] at h
      rcases List.mem_cons.mp h with h' | h'
      · exact Or.inl (List.mem_cons.mpr (Or.inl h'))
      · rcases ih h' with h2 | h2
        · exact Or.inl (List.mem_cons.mpr (Or.inr h2))
        · exact Or.inr h2

theorem uniqueKeys_dictSet (tbl : List (String × Int)) (k : String) (v : Int)
    (hu : uniqueKeys tbl) : uniqueKeys (dictSet tbl k v) := by
  induction tbl with
  | nil => simp [dictSet, uniqueKeys]
  | cons hd rest ih =>
    obtain ⟨k', v'⟩ := hd
    rw [uniqueKeys, List.map_cons, List.nodup_cons] at hu
    by_cases hk : k' = k
    · rw [uniqueKeys]
      simp only [dictSet, if_pos hk, List.map_cons, List.nodup_cons]
      exact hu
    · rw [uniqueKeys]
      simp only [dictSet, if_neg hk, List.map_cons, List.nodup_cons]
      refine ⟨fun hmem => ?_, ih hu.2⟩
      rcases mem_keys_dictSet rest k v k' hmem with h' | h'
      · exact hu.1 h'
      · exact hk h'

/-! ### Drain lemmas: the per-tick command block as table map and filter -/

/-- What one tick does to a single stored value: a non-negative value is
reset to the sentinel, a negative one is left alone. -/
def stepVal (v : Int) : Int := if 0 ≤ v then SENTINEL else v

theorem drain_fst (tbl : List (String × Int)) :
    (drainReady tbl).1 = tbl.map (fun kv => (kv.1, stepVal kv.2)) := by
  induction tbl with
  | nil => rfl
  | cons hd rest ih =>
    obtain ⟨k, v⟩ := hd
    by_cases h : (0 : Int) ≤ v <;> simp [drainReady, stepVal, h, ih]

theorem drain_snd (tbl : List (String × Int)) :
    (drainReady tbl).2 = tbl.filter (fun kv => decide (0 ≤ kv.2)) := by
  induction tbl with
  | nil => rfl
  | cons hd rest ih =>
    obtain ⟨k, v⟩ := hd
    by_cases h : (0 : Int) ≤ v <;> simp [drainReady, h, ih]

theorem dictGet_drain_fst (tbl : List (String × Int)) (d : String) :
    dictGet (drainReady tbl).1 d = (dictGet tbl d).map stepVal := by
  induction tbl with
  | nil => rfl
  | cons hd rest ih =>
    obtain ⟨k, v⟩ := hd
    by_cases hk : k = d <;> by_cases hv : (0 : Int) ≤ v <;>
      simp [drainReady, dictGet, stepVal, hk, hv, ih]

theorem drain_fst_neg (tbl : List (String × Int)) :
    ∀ kv ∈ (drainReady tbl).1, kv.2 < 0 := by
  intro kv hkv
  rw [drain_fst] at hkv
  rw [List.mem_map] at hkv
  obtain ⟨kv', _, rfl⟩ := hkv
  by_cases h : (0 : Int) ≤ kv'.2
  · simp [stepVal, h, SENTINEL]
  · simp [stepVal, h]
    omega

theorem drain_all_neg (tbl : List (String × Int))
    (h : ∀ kv ∈ tbl, kv.2 < 0) : drainReady tbl = (tbl, []) := by
  induction tbl with
  | nil => rfl
  | cons hd rest ih =>
    obtain ⟨k, v⟩ := hd
    have hv : v < 0 := h (k, v) (by simp)
    have hrest := ih (fun kv hk => h kv (List.mem_cons_of_mem _ hk))
    simp [drainReady, not_le.mpr hv, hrest]

theorem filter_key_eq_nil (l : List (String × Int)) (d : String)
    (h : ∀ kv ∈ l, kv.1 ≠ d) :
    l.filter (fun kv => decide (kv.1 = d)) = [] := by
  induction l with
  | nil => rfl
  | cons hd rest ih =>
    have hhd : hd.1 ≠ d := h hd (by simp)
    rw [List.filter_cons]
    simp only [hhd, decide_False, if_false]
    exact ih (fun kv hk => h kv (List.mem_cons_of_mem _ hk))

theorem filter_key_of_nodup (tbl : List (String × Int)) (d : String) (v : Int)
    (hu : uniqueKeys tbl) (h : dictGet tbl d = some v) :
    tbl.filter (fun kv => decide (kv.1 = d)) = [(d, v)] := by
  induction tbl with
  | nil => simp [dictGet] at h
  | cons hd rest ih =>
    obtain ⟨k, w⟩ := hd
    rw [uniqueKeys, List.map_cons, List.nodup_cons] at hu
    by_cases hk : k = d
    · subst hk
      simp [dictGet] at h
      subst h
      rw [List.filter_cons]
      simp only [decide_True, if_true]
      have : rest.filter (fun kv => decide (kv.1 = k)) = [] := by
        refine filter_key_eq_nil rest k (fun kv hkv hkd => ?_)
        exact hu.1 (List.mem_map.mpr ⟨kv, hkv, hkd⟩)
      rw [this]
    · simp [dictGet, hk] at h
      rw [List.filter_cons]
      simp only [hk, decide_False, if_false]
      exact ih hu.2 h

theorem drain_filter_key (tbl : List (String × Int)) (d : String) (v : Int)
    (hu : uniqueKeys tbl) (h : dictGet tbl d = some v) (hv : 0 ≤ v) :
    (drainReady tbl).2.filter (fun kv => decide (kv.1 = d)) = [(d, v)] := by
  rw [drain_snd, List.filter_filter]
  have hcomm :
      tbl.filter (fun kv => decide (kv.1 = d) && decide (0 ≤ kv.2)) =
        tbl.filter (fun kv => decide (0 ≤ kv.2) && decide (kv.1 = d)) :=
    List.filter_congr (fun kv _ => Bool.and_comm _ _)
  rw [hcomm, ← List.filter_filter, filter_key_of_nodup tbl d v hu h]
  simp [hv]

/-- The hub-write calls of a tick with an infallible hub are exactly the
drained entries, whatever the accumulator table is. -/
theorem tickLoop_ok_calls (snap : List (String × Int)) :
    ∀ tbl, (tickLoop okSetPos snap tbl).2.1 = snap.filter (fun kv => decide (0 ≤ kv.2)) := by
  induction snap with
  | nil => intro tbl; rfl
  | cons hd rest ih =>
    intro tbl
    obtain ⟨k, v⟩ := hd
    by_cases h : (0 : Int) ≤ v <;> simp [tickLoop, okSetPos, h, ih]

/-! ### Message-handler lemmas -/

/-- When the payload parses as an integer, the handler returns normally and
its effect on the table is the pure staging pass. -/
theorem onMessage_ok (topic payload : String) (v : Int)
    (hp : parseInt payload = some v) :
    ∀ (roster : List (String × Bool)) (tbl : List (String × Int)),
      mqtt_on_message roster topic payload tbl =
        Except.ok (stageMatches roster topic v tbl) := by
  intro roster
  induction roster with
  | nil => intro tbl; rfl
  | cons hd rest ih =>
    intro tbl
    obtain ⟨name, b⟩ := hd
    by_cases h : matchesTopic topic name = true
    · simp [mqtt_on_message, stageMatches, h, hp, ih]
    · simp [mqtt_on_message, stageMatches, h, ih]

theorem stagedFor_cons (name : String) (b : Bool) (rest : List (String × Bool))
    (topic d : String) :
    stagedFor ((name, b) :: rest) topic d =
      (decide (name = d) && matchesTopic topic name || stagedFor rest topic d) := by
  simp [stagedFor, List.any_cons]

/-- The staging pass overwrites exactly the entries of devices matched by
the substring test, all with the parsed value. -/
theorem dictGet_stageMatches (topic : String) (v : Int) (d : String) :
    ∀ (roster : List (String × Bool)) (tbl : List (String × Int)),
      dictGet (stageMatches roster topic v tbl) d =
        if stagedFor roster topic d then some v else dictGet tbl d := by
  intro roster
  induction roster with
  | nil => intro tbl; simp [stageMatches, stagedFor]
  | cons hd rest ih =>
    intro tbl
    obtain ⟨name, b⟩ := hd
    rw [stagedFor_cons]
    by_cases hm : matchesTopic topic name = true
    · rw [show stageMatches ((name, b) :: rest) topic v tbl
          = stageMatches rest topic v (dictSet tbl name v) from by simp [stageMatches, hm]]
      rw [ih]
      by_cases hs : stagedFor rest topic d = true
      · simp [hs, hm]
      · by_cases hnd : name = d
        · subst hnd
          simp [hs, hm, dictGet_dictSet_self]
        · simp [hs, hm, hnd, dictGet_dictSet_ne tbl name d v hnd]
    · rw [show stageMatches ((name, b) :: rest) topic v tbl
          = stageMatches rest topic v tbl from by simp [stageMatches, hm]]
      rw [ih]
      simp [hm]

/-! ### Connection-manager lemmas -/

/-- Every CONNACK code other than success (0) and server-unavailable (3)
runs the `cleanup` handler: the fatal branches of `mqtt_on_connect`. -/
theorem on_connect_fatal (root status : String) (roster : List (String × Bool))
    (rc : Nat) (s : BridgeState) (h0 : rc ≠ 0) (h3 : rc ≠ 3) :
    mqtt_on_connect root status roster rc s = cleanup s := by
  unfold mqtt_on_connect
  rw [if_neg h0]
  by_cases h1 : rc = 1
  · rw [if_pos h1]
  · rw [if_neg h1]
    by_cases h2 : rc = 2
    · rw [if_pos h2]
    · rw [if_neg h2, if_neg h3]
      by_cases h4 : rc = 4
      · rw [if_pos h4]
      · rw [if_neg h4]
        by_cases h5 : rc = 5
        · rw [if_pos h5]
        · rw [if_neg h5]

theorem getLast_append3 {α : Type} (xs : List α) (a b c : α) :
    (xs ++ [a, b, c]).getLast? = some c := by
  rw [show xs ++ [a, b, c] = (xs ++ [a, b]) ++ [c] by simp]
  exact List.getLast?_concat _

/-- Any number of server-unavailable refusals only accumulates 10-second
backoffs: the state is otherwise untouched, so the bridge neither shuts
down nor gives up, however many attempts fail. -/
theorem processConnects_unavailable (root status : String) (roster : List (String × Bool)) :
    ∀ (n : Nat) (s : BridgeState),
      processConnects root status roster (List.replicate n 3) s =
        { s with sleeps := s.sleeps ++ List.replicate n 10 } := by
  intro n
  induction n with
  | zero => intro s; simp [processConnects]
  | succ m ih =>
    intro s
    have hstep : mqtt_on_connect root status roster 3 s =
        { s with sleeps := s.sleeps ++ [10] } := by
      simp [mqtt_on_connect]
    rw [List.replicate_succ]
    rw [show processConnects root status roster (3 :: List.replicate m 3) s
        = processConnects root status roster (List.replicate m 3)
            (mqtt_on_connect root status roster 3 s) from rfl]
    rw [hstep, ih]
    simp [List.replicate_succ, List.append_assoc]

/-! ### The claims -/

/-- C1: for a staging table with unique keys (a Python dict), after
stage(d, v1) followed by stage(d, v2) with no intervening drain and v2 in
the valid 0-100 command range, the next drain yields exactly one entry for
d, and its value is v2: the later command overwrites the earlier pending
value, and the device appears at most once in a single drain. -/
theorem claim1_last_write_wins (tbl : List (String × Int)) (d : String) (v1 v2 : Int)
    (hu : uniqueKeys tbl) (h0 : 0 ≤ v2) (h100 : v2 ≤ 100) :
    (drainReady (dictSet (dictSet tbl d v1) d v2)).2.filter
        (fun kv => decide (kv.1 = d)) = [(d, v2)] :=
  drain_filter_key _ d v2
    (uniqueKeys_dictSet _ d v2 (uniqueKeys_dictSet tbl d v1 hu))
    (dictGet_dictSet_self _ d v2) h0

/-- C1 witness: the empty table, device shutter1, values 10 then 42. -/
theorem claim1_last_write_wins_witness :
    uniqueKeys ([] : List (String × Int)) ∧ (0 : Int) ≤ 42 ∧ (42 : Int) ≤ 100 ∧
    (drainReady (dictSet (dictSet [] "shutter1" 10) "shutter1" 42)).2.filter
        (fun kv => decide (kv.1 = "shutter1")) = [("shutter1", 42)] :=
  ⟨by simp [uniqueKeys], by decide, by decide,
   claim1_last_write_wins [] "shutter1" 10 42 (by simp [uniqueKeys]) (by decide) (by decide)⟩

/-- C2: a pending command with a valid value is issued by the drain, its
table entry is reset to the sentinel, and a second drain with no
intervening stage issues nothing at all; moreover the tick resets the
entry to the sentinel before the hub write completes — even a write that
raises leaves the entry already reset (at-most-once issuance). -/
theorem claim2_at_most_once_issuance (tbl : List (String × Int)) (d : String) (v : Int)
    (h : dictGet tbl d = some v) (hv : 0 ≤ v) :
    (d, v) ∈ (drainReady tbl).2
    ∧ dictGet (drainReady tbl).1 d = some SENTINEL
    ∧ drainReady (drainReady tbl).1 = ((drainReady tbl).1, [])
    ∧ tickLoop (failingSetPos d) [(d, v)] tbl
        = (dictSet tbl d SENTINEL, [(d, v)], some "hub write failed") := by
  refine ⟨?_, ?_, ?_, ?_⟩
  · rw [drain_snd]
    exact List.mem_filter.mpr ⟨dictGet_some_mem tbl d v h, by simpa using hv⟩
  · rw [dictGet_drain_fst, h]
    simp [stepVal, hv]
  · exact drain_all_neg _ (drain_fst_neg tbl)
  · simp [tickLoop, failingSetPos, hv]

/-- C2 witness: table holding shutter1 at 42. -/
theorem claim2_at_most_once_issuance_witness :
    dictGet [("shutter1", 42)] "shutter1" = some 42 ∧ (0 : Int) ≤ 42 ∧
    (("shutter1", (42 : Int)) ∈ (drainReady [("shutter1", 42)]).2
    ∧ dictGet (drainReady [("shutter1", (42 : Int))]).1 "shutter1" = some SENTINEL
    ∧ drainReady (drainReady [("shutter1", (42 : Int))]).1
        = ((drainReady [("shutter1", (42 : Int))]).1, [])
    ∧ tickLoop (failingSetPos "shutter1") [("shutter1", 42)] [("shutter1", 42)]
        = (dictSet [("shutter1", 42)] "shutter1" SENTINEL,
           [("shutter1", 42)], some "hub write failed")) :=
  ⟨by decide, by decide,
   claim2_at_most_once_issuance [("shutter1", 42)] "shutter1" 42 (by decide) (by decide)⟩

/-- C3 as stated is false: the handler stages by the substring test
`node.name + "/set" in msg.topic` over every roster node, so with known
devices shutter1 and tter1, a message on home/shutter1/set also stages a
command for tter1, whose command topic home/tter1/set differs from the
message topic. -/
theorem claim3_counterexample :
    mqtt_on_message [("shutter1", true), ("tter1", false)] "home/shutter1/set" "42" []
      = Except.ok [("shutter1", 42), ("tter1", 42)]
    ∧ ("home/tter1/set" : String) ≠ "home/shutter1/set" :=
  ⟨rfl, by decide⟩

/-- C3 amended: a message whose payload parses as an integer is staged for
each known device d exactly when d's name followed by "/set" occurs as a
substring of the topic (any capability, substring not exact match); the
staged value is the payload for every matched device.  The concrete
scenario holds: home/shutter1/set with payload 42 and known opening-device
shutter1 leaves the table at shutter1 = 42, and the next tick issues
(shutter1, 42) to the hub and resets the entry to the sentinel. -/
theorem claim3_amended_substring_staging (roster : List (String × Bool))
    (topic payload : String) (v : Int) (d : String) (tbl : List (String × Int))
    (hp : parseInt payload = some v) :
    mqtt_on_message roster topic payload tbl = Except.ok (stageMatches roster topic v tbl)
    ∧ dictGet (stageMatches roster topic v tbl) d
        = (if stagedFor roster topic d then some v else dictGet tbl d)
    ∧ mqtt_on_message [("shutter1", true)] "home/shutter1/set" "42" []
        = Except.ok [("shutter1", 42)]
    ∧ drainReady [("shutter1", (42 : Int))]
        = ([("shutter1", SENTINEL)], [("shutter1", (42 : Int))]) :=
  ⟨onMessage_ok topic payload v hp roster tbl,
   dictGet_stageMatches topic v d roster tbl,
   rfl, by decide⟩

/-- C3 amended witness at the scenario instance. -/
theorem claim3_amended_substring_staging_witness :
    parseInt "42" = some 42 ∧
    (mqtt_on_message [("shutter1", true)] "home/shutter1/set" "42" []
        = Except.ok (stageMatches [("shutter1", true)] "home/shutter1/set" 42 [])
    ∧ dictGet (stageMatches [("shutter1", true)] "home/shutter1/set" 42 []) "shutter1"
        = (if stagedFor [("shutter1", true)] "home/shutter1/set" "shutter1"
            then some 42 else dictGet [] "shutter1")
    ∧ mqtt_on_message [("shutter1", true)] "home/shutter1/set" "42" []
        = Except.ok [("shutter1", 42)]
    ∧ drainReady [("shutter1", (42 : Int))]
        = ([("shutter1", SENTINEL)], [("shutter1", (42 : Int))])) :=
  ⟨by decide,
   claim3_amended_substring_staging [("shutter1", true)] "home/shutter1/set" "42" 42
     "shutter1" [] (by decide)⟩

/-- C4: no drained command ever carries the sentinel value, while staged
values of exactly 0 and exactly 100 are drained and issued like any valid
value and their entry is reset to the sentinel afterwards. -/
theorem claim4_sentinel_boundary (tbl : List (String × Int)) (d : String)
    (hu : uniqueKeys tbl) :
    (∀ kv ∈ (drainReady tbl).2, kv.2 ≠ SENTINEL)
    ∧ (drainReady (dictSet tbl d 0)).2.filter (fun kv => decide (kv.1 = d)) = [(d, 0)]
    ∧ (drainReady (dictSet tbl d 100)).2.filter (fun kv => decide (kv.1 = d)) = [(d, 100)]
    ∧ dictGet (drainReady (dictSet tbl d 100)).1 d = some SENTINEL := by
  refine ⟨?_, ?_, ?_, ?_⟩
  · intro kv hkv
    rw [drain_snd] at hkv
    have h2 := (List.mem_filter.mp hkv).2
    simp at h2
    simp only [SENTINEL]
    omega
  · exact drain_filter_key _ d 0 (uniqueKeys_dictSet tbl d 0 hu)
      (dictGet_dictSet_self tbl d 0) (by decide)
  · exact drain_filter_key _ d 100 (uniqueKeys_dictSet tbl d 100 hu)
      (dictGet_dictSet_self tbl d 100) (by decide)
  · rw [dictGet_drain_fst, dictGet_dictSet_self]
    norm_num [stepVal]

/-- C4 witness: a table already holding another device. -/
theorem claim4_sentinel_boundary_witness :
    uniqueKeys [("other", (-1 : Int))] ∧
    ((∀ kv ∈ (drainReady [("other", (-1 : Int))]).2, kv.2 ≠ SENTINEL)
    ∧ (drainReady (dictSet [("other", (-1 : Int))] "shutter1" 0)).2.filter
        (fun kv => decide (kv.1 = "shutter1")) = [("shutter1", 0)]
    ∧ (drainReady (dictSet [("other", (-1 : Int))] "shutter1" 100)).2.filter
        (fun kv => decide (kv.1 = "shutter1")) = [("shutter1", 100)]
    ∧ dictGet (drainReady (dictSet [("other", (-1 : Int))] "shutter1" 100)).1 "shutter1"
        = some SENTINEL) :=
  ⟨by simp [uniqueKeys],
   claim4_sentinel_boundary [("other", (-1 : Int))] "shutter1" (by simp [uniqueKeys])⟩

/-- C5 is refuted by the code: the hub write of the tick loop is not
guarded by any exception handler, so when the write for device bad raises,
the exception propagates out of the loop — the error is recorded as
uncaught, only the failing command was ever issued, and a command staged
for a later tick is never issued. -/
theorem claim5_hub_write_failure_kills_loop :
    (runTicks (failingSetPos "bad") [[("bad", 50)], [("good", 30)]] []).2.2
        = some "hub write failed"
    ∧ (runTicks (failingSetPos "bad") [[("bad", 50)], [("good", 30)]] []).2.1
        = [("bad", 50)]
    ∧ ("good", (30 : Int)) ∉
        (runTicks (failingSetPos "bad") [[("bad", 50)], [("good", 30)]] []).2.1 :=
  ⟨rfl, rfl, by decide⟩

/-- C6 is refuted by the code: a command-topic message whose payload is not
an integer makes the handler raise (the unguarded int(msg.payload) at line
155 throws ValueError), instead of being ignored with the handler
terminating normally. -/
theorem claim6_malformed_payload_raises :
    mqtt_on_message [("shutter1", true)] "home/shutter1/set" "abc" []
      = Except.error () := rfl

/-- C7: every CONNACK refusal code other than success and
server-unavailable clears the RUNNING flag with no backoff sleep and no
publish (no retry), and the shutdown sequence that then runs leaves the
retained "DISCONNECTED" status publish as the terminal message. -/
theorem claim7_fatal_refusal_shutdown (root status : String)
    (roster : List (String × Bool)) (rc : Nat) (s : BridgeState)
    (h0 : rc ≠ 0) (h3 : rc ≠ 3) :
    (mqtt_on_connect root status roster rc s).running = false
    ∧ (mqtt_on_connect root status roster rc s).sleeps = s.sleeps
    ∧ (mqtt_on_connect root status roster rc s).publishes = s.publishes
    ∧ (shutdownSequence status (mqtt_on_connect root status roster rc s)).publishes.getLast?
        = some (status, "DISCONNECTED", true) := by
  rw [on_connect_fatal root status roster rc s h0 h3]
  exact ⟨rfl, rfl, rfl, getLast_append3 _ _ _ _⟩

/-- C7 witness: refusal code 4, bad username or password. -/
theorem claim7_fatal_refusal_shutdown_witness :
    (4 : Nat) ≠ 0 ∧ (4 : Nat) ≠ 3 ∧
    ((mqtt_on_connect "home" "vlx/status" [] 4 initState).running = false
    ∧ (mqtt_on_connect "home" "vlx/status" [] 4 initState).sleeps = initState.sleeps
    ∧ (mqtt_on_connect "home" "vlx/status" [] 4 initState).publishes = initState.publishes
    ∧ (shutdownSequence "vlx/status"
          (mqtt_on_connect "home" "vlx/status" [] 4 initState)).publishes.getLast?
        = some ("vlx/status", "DISCONNECTED", true)) :=
  ⟨by decide, by decide,
   claim7_fatal_refusal_shutdown "home" "vlx/status" [] 4 initState (by decide) (by decide)⟩

/-- C8: server-unavailable refusals are absorbed by a fixed 10-second
backoff each, for any number of attempts, without shutting down or
changing anything else; in the concrete scenario of three such refusals
followed by a success, the manager has slept 10 seconds three times, is
Connected, still Running, and has published "CONNECTED" retained. -/
theorem claim8_transient_refusal_retry :
    (∀ (n : Nat) (root status : String) (roster : List (String × Bool)) (s : BridgeState),
        processConnects root status roster (List.replicate n 3) s
          = { s with sleeps := s.sleeps ++ List.replicate n 10 })
    ∧ processConnects "home" "vlx/status" [("shutter1", true)] [3, 3, 3, 0] initState
        = ⟨true, true, [("vlx/status", "CONNECTED", true)], [10, 10, 10],
           ["home/shutter1/set"]⟩ :=
  ⟨fun n root status roster s => processConnects_unavailable root status roster n s,
   by decide⟩

/-- C9: a device-update callback invoked while the broker connection flag
is down publishes nothing and returns normally, for every device and
position; the disconnect handler is what clears that flag. -/
theorem claim9_publish_noop_when_disconnected :
    (∀ (root name : String) (pos : Nat), vlx_cb false root name pos = [])
    ∧ (∀ (rc : Nat) (s : BridgeState),
        (mqtt_on_disconnect rc s).mqttConn = false
        ∧ ∀ (root name : String) (pos : Nat),
            vlx_cb (mqtt_on_disconnect rc s).mqttConn root name pos = []) :=
  ⟨fun _ _ _ => rfl, fun _ _ => ⟨rfl, fun _ _ _ => rfl⟩⟩

/-- C10: every value a tick passes to the hub write is non-negative — the
tick's calls are exactly the drained entries, all with value >= 0 — and a
staged negative value is never issued: the drain returns no entry for that
device and leaves its stored value unchanged, as if nothing were pending. -/
theorem claim10_nonnegative_issuance (tbl : List (String × Int)) (d : String) (v : Int)
    (hu : uniqueKeys tbl) (h : dictGet tbl d = some v) (hneg : v < 0) :
    (∀ kv ∈ (tickLoop okSetPos tbl tbl).2.1, 0 ≤ kv.2)
    ∧ (tickLoop okSetPos tbl tbl).2.1 = (drainReady tbl).2
    ∧ (drainReady tbl).2.filter (fun kv => decide (kv.1 = d)) = []
    ∧ dictGet (drainReady tbl).1 d = some v := by
  refine ⟨?_, ?_, ?_, ?_⟩
  · intro kv hkv
    rw [tickLoop_ok_calls tbl tbl] at hkv
    have h2 := (List.mem_filter.mp hkv).2
    simpa using h2
  · rw [tickLoop_ok_calls tbl tbl, drain_snd]
  · rw [drain_snd, List.filter_filter]
    have hcomm :
        tbl.filter (fun kv => decide (kv.1 = d) && decide (0 ≤ kv.2)) =
          tbl.filter (fun kv => decide (0 ≤ kv.2) && decide (kv.1 = d)) :=
      List.filter_congr (fun kv _ => Bool.and_comm _ _)
    rw [hcomm, ← List.filter_filter, filter_key_of_nodup tbl d v hu h]
    simp [not_le.mpr hneg]
  · rw [dictGet_drain_fst, h]
    simp [stepVal, not_le.mpr hneg]

/-- C10 witness: a table holding a negative staged value. -/
theorem claim10_nonnegative_issuance_witness :
    uniqueKeys [("shutter1", (-5 : Int))]
    ∧ dictGet [("shutter1", (-5 : Int))] "shutter1" = some (-5)
    ∧ (-5 : Int) < 0
    ∧ ((∀ kv ∈ (tickLoop okSetPos [("shutter1", (-5 : Int))] [("shutter1", (-5 : Int))]).2.1,
          0 ≤ kv.2)
    ∧ (tickLoop okSetPos [("shutter1", (-5 : Int))] [("shutter1", (-5 : Int))]).2.1
        = (drainReady [("shutter1", (-5 : Int))]).2
    ∧ (drainReady [("shutter1", (-5 : Int))]).2.filter
        (fun kv => decide (kv.1 = "shutter1")) = []
    ∧ dictGet (drainReady [("shutter1", (-5 : Int))]).1 "shutter1" = some (-5)) :=
  ⟨by simp [uniqueKeys], by decide, by decide,
   claim10_nonnegative_issuance [("shutter1", (-5 : Int))] "shutter1" (-5)
     (by simp [uniqueKeys]) (by decide) (by decide)⟩

end Vlx2Mqtt
